import Mathlib

/-!
Verification development for the OCR fallback pipeline in
`backend/open_webui/retrieval/loaders/ocrprocessor.py`.

The Python source is shallowly embedded: page OCR outcomes, rasterization
outcomes, memory-pressure signals and executor-level `RuntimeError`s are
supplied by an abstract environment, while the control flow of
`ocr_pdf_fallback`, `layout_to_markdown`, `perform_ocr`,
`post_process_text` and `convert_to_markdown` is translated faithfully.
Machine floats are modelled by `ℚ`; a value that may be Python `None` is an
`Option`; code that can raise is an `Except`.
-/

namespace OcrProc

/-- One corner-point quadruple of an OCR bounding box, as produced by
EasyOCR: `bbox[0]` is the top-left point and `bbox[2]` the bottom-right. -/
structure BBox where
  p0 : ℚ × ℚ
  p1 : ℚ × ℚ
  p2 : ℚ × ℚ
  p3 : ℚ × ℚ
deriving DecidableEq

/-- One OCR detection `(bbox, text, conf)` as consumed by
`layout_to_markdown`; `conf` is `none` when the engine reports no
confidence (Python `None`). -/
structure Det where
  bbox : BBox
  text : String
  conf : Option ℚ
deriving DecidableEq

/-- The sort key used in `layout_to_markdown`: `res[0][0][1]`, the top
y-coordinate of the bounding box. -/
def topY (d : Det) : ℚ := d.bbox.p0.2

/-- The bottom y-coordinate `bbox[2][1]` used to update `last_bottom`. -/
def botY (d : Det) : ℚ := d.bbox.p2.2

/-- Comparison by top y-coordinate, the order used by
`sorted(ocr_results, key=lambda res: res[0][0][1])`. -/
def detLE (a b : Det) : Prop := topY a ≤ topY b

instance : DecidableRel detLE := fun a b =>
  show Decidable (topY a ≤ topY b) from inferInstance

instance : IsTotal Det detLE := ⟨fun a b => le_total (topY a) (topY b)⟩

instance : IsTrans Det detLE := ⟨fun _ _ _ hab hbc => le_trans hab hbc⟩

/-- The paragraph-grouping loop of `layout_to_markdown`: walk the sorted
detections keeping the output paragraph list, the current paragraph buffer
and `last_bottom`; flush the buffer when the vertical gap exceeds the
threshold, and flush a nonempty buffer at the end. -/
def paraLoop (thr : ℚ) : List Det → List String → List String → Option ℚ → List String
  | [], paragraphs, current, _ =>
      if current = [] then paragraphs
      else paragraphs ++ [String.intercalate " " current]
  | d :: rest, paragraphs, current, lastBottom =>
      match lastBottom with
      | some lb =>
          if topY d - lb > thr then
            paraLoop thr rest (paragraphs ++ [String.intercalate " " current])
              [d.text] (some (botY d))
          else
            paraLoop thr rest paragraphs (current ++ [d.text]) (some (botY d))
      | none => paraLoop thr rest paragraphs (current ++ [d.text]) (some (botY d))

/-- Body of `layout_to_markdown` after the initial sort.  The average
confidence is `sum(confidences) / len(confidences)` when the list is
nonempty; a `None` confidence in a nonempty list makes Python's `sum`
raise `TypeError`, modelled by `Except.error`. -/
def layoutCore (thr : ℚ) (sortedResults : List Det) : Except Unit (String × Option ℚ) :=
  let paragraphs := paraLoop thr sortedResults [] [] none
  let markdownText := String.intercalate "\n\n" paragraphs
  let confidences := sortedResults.map Det.conf
  if confidences.isEmpty then Except.ok (markdownText, none)
  else if confidences.all Option.isSome then
    Except.ok (markdownText,
      some ((confidences.filterMap id).sum / (confidences.length : ℚ)))
  else Except.error ()

/-- `layout_to_markdown(ocr_results, vertical_threshold)`: sort the
detections by top y-coordinate (Python's `sorted` is stable; so is
insertion sort), then group into paragraphs and average the confidences. -/
def layout_to_markdown (ocrResults : List Det) (thr : ℚ) : Except Unit (String × Option ℚ) :=
  layoutCore thr (List.insertionSort detLE ocrResults)

/-- The OCR backends distinguished in `OCRProcessor.perform_ocr`. -/
inductive EngineKind where
  | easyocr
  | pytesseract
  | paddleocr
  | unsupported
deriving DecidableEq

/-- The raw results of one invocation of the underlying engine: each
field is the value returned by the corresponding raw call, or the message
of the exception it raised. -/
structure EngineCall where
  readtext : Except String (List Det)
  imageToString : Except String String
  paddleResults : Except String (List Det)

/-- `OCRProcessor.perform_ocr`: dispatch on the backend, run layout
reconstruction for structured backends, and catch every exception
(including the `TypeError` from averaging a `None` confidence), mapping
it to `("", None)`. -/
def perform_ocr (engine : EngineKind) (call : EngineCall) : String × Option ℚ :=
  match engine with
  | .easyocr =>
      match call.readtext with
      | .error _ => ("", none)
      | .ok ds =>
          match layout_to_markdown ds 10 with
          | .ok r => r
          | .error _ => ("", none)
  | .pytesseract =>
      match call.imageToString with
      | .error _ => ("", none)
      | .ok t => (t, none)
  | .paddleocr =>
      match call.paddleResults with
      | .error _ => ("", none)
      | .ok ds =>
          match layout_to_markdown ds 10 with
          | .ok r => r
          | .error _ => ("", none)
  | .unsupported => ("", none)

/-- Whitespace-stripping of one line, as Python `str.strip()`. -/
def stripLine (s : String) : String :=
  ⟨((s.data.dropWhile Char.isWhitespace).reverse.dropWhile Char.isWhitespace).reverse⟩

/-- Splitting into lines at newline characters, as Python
`str.splitlines()` for newline-separated text.  (Python drops a trailing
empty line where this keeps it; the blank-line filter of
`post_process_text` erases the difference.) -/
def splitLinesAux : List Char → List Char → List String
  | [], acc => [⟨acc.reverse⟩]
  | c :: cs, acc =>
      if c = '\n' then ⟨acc.reverse⟩ :: splitLinesAux cs []
      else splitLinesAux cs (c :: acc)

/-- See `splitLinesAux`. -/
def splitLines (s : String) : List String := splitLinesAux s.data []

/-- `post_process_text`: split into lines, strip each line, drop blank
lines, and rejoin with single newlines. -/
def post_process_text (text : String) : String :=
  String.intercalate "\n"
    (((splitLines text).map stripLine).filter (fun l => !(l == "")))

/-- `convert_to_markdown(text, page_number)`: prepend the page header
(`page_number + 1`, converting the zero-indexed page number for display)
or the generic image heading.  The `img_bytes` parameter of the source is
unused there and omitted. -/
def convert_to_markdown (text : String) (pageNumber : Option ℕ) : String :=
  match pageNumber with
  | some n => "\n\n# [Page " ++ Nat.repr (n + 1) ++ "]:\n\n" ++ text
  | none => "# Image Scan Text\n\n" ++ text

/-- One output `Document`: `page_content` plus the metadata written by
`ocr_pdf_fallback` / `ocr_image`.  `page_number` is `none` when the
metadata has no such key (standalone images). -/
structure Doc where
  content : String
  page_number : Option ℕ
  image_format : String
  average_confidence : Option ℚ
deriving DecidableEq

/-- Abstract environment for one run of `ocr_pdf_fallback`:
* `num_pages` — `len(pdf_document)`;
* `openOk` — whether `fitz.open` succeeds;
* `init_file` — content of the checkpoint file at the start (`none` when
  missing or unreadable, in which case `load_checkpoint` yields `[]`);
* `rasterOk p` — whether `extract_image_from_page` yields bytes for page
  `p` (on failure it returns `(p, None)` and the page is dropped);
* `ocr p` — the `(text, avg_conf)` returned by `_perform_ocr` for page
  `p` (total: `perform_ocr` never raises);
* `interrupt i` — for the window at loop iteration `i`, `some (k, oom)`
  when a `RuntimeError` is raised after `k` pages of the window have been
  handled, `oom` saying whether its message contains "CUDA out of
  memory"; `none` when no exception is raised;
* `memHigh i` — whether `psutil.virtual_memory().percent > 80` when
  sampled after window `i`. -/
structure Env where
  num_pages : ℕ
  openOk : Bool
  init_file : Option (List ℕ)
  rasterOk : ℕ → Bool
  ocr : ℕ → String × Option ℚ
  interrupt : ℕ → Option (ℕ × Bool)
  memHigh : ℕ → Bool

/-- Mutable state of one `ocr_pdf_fallback` run: the current batch size,
`processed_pages`, `failed_batches`, the emitted documents, the checkpoint
file content, and (ghost, mirroring the per-batch debug log) the list of
page-number windows actually attempted. -/
structure RunState where
  batch_size : ℕ
  processed : List ℕ
  failed : List ℕ
  docs : List Doc
  file : Option (List ℕ)
  attempted : List (List ℕ)

/-- The `Document` built for PDF page `p`: post-processed text under the
page header, with metadata `page_number = p` (zero-indexed as in the
source), `image_format = "png"` and the page's average confidence. -/
def mkDoc (env : Env) (p : ℕ) : Doc :=
  ⟨convert_to_markdown (post_process_text (env.ocr p).1) (some p),
    some p, "png", (env.ocr p).2⟩

/-- Handling of one completed future for page `p`: when the text is
nonempty, emit the document, append `p` to `processed_pages` and save the
checkpoint; otherwise do nothing. -/
def processPage (env : Env) (st : RunState) (p : ℕ) : RunState :=
  if (env.ocr p).1 = "" then st
  else
    { st with
      docs := st.docs ++ [mkDoc env p],
      processed := st.processed ++ [p],
      file := some (st.processed ++ [p]) }

/-- `page_nums` of the window at `batch_start`: the contiguous range up to
`min(batch_start + batch_size, num_pages)` with already-processed indices
removed.  Note that `batch_end` uses the *current* batch size. -/
def pageNums (env : Env) (st : RunState) (batchStart : ℕ) : List ℕ :=
  let batchEnd := min (batchStart + st.batch_size) env.num_pages
  (List.range' batchStart (batchEnd - batchStart)).filter
    (fun p => decide (¬ p ∈ st.processed))

/-- The pages of the window whose rasterization succeeded (the `images`
list, keeping only page numbers). -/
def imagesOf (env : Env) (st : RunState) (batchStart : ℕ) : List ℕ :=
  (pageNums env st batchStart).filter env.rasterOk

/-- `batch_size = max(1, batch_size // 2)`. -/
def halveBatch (st : RunState) : RunState :=
  { st with batch_size := max 1 (st.batch_size / 2) }

/-- The memory check after a window: halve the batch size when system
memory utilization exceeds 80%. -/
def memCheck (env : Env) (i : ℕ) (st : RunState) : RunState :=
  if env.memHigh i then halveBatch st else st

/-- One iteration of the `for batch_start in range(...)` loop, at loop
index `i` with window start `batchStart`: filter the window, skip it when
empty, rasterize, then iterate over the futures.  A `RuntimeError` after
`k` pages either triggers the OOM backoff (`continue`, skipping the
memory check) or extends `failed_batches` with the whole window. -/
def windowStep (env : Env) (i batchStart : ℕ) (st : RunState) : RunState :=
  let pns := pageNums env st batchStart
  if pns = [] then st
  else
    let st1 := { st with attempted := st.attempted ++ [pns] }
    let imgs := imagesOf env st batchStart
    if imgs = [] then st1
    else
      match env.interrupt i with
      | none => memCheck env i (imgs.foldl (processPage env) st1)
      | some (k, isOom) =>
          let st2 := (imgs.take k).foldl (processPage env) st1
          if isOom then halveBatch st2
          else memCheck env i { st2 with failed := st2.failed ++ pns }

/-- The window starts produced by `range(0, num_pages, batch_size)`.
Python evaluates the step once, so the stride stays the *initial* batch
size for the whole run even after halving. -/
def startsList (numPages bs : ℕ) : List ℕ :=
  List.range' 0 ((numPages + bs - 1) / bs) bs

/-- The state at the top of the loop: initial batch size, the checkpoint
loaded from `init_file` (missing or corrupt degrades to `[]`), and empty
failure, output and attempt lists. -/
def initState (env : Env) (bs : ℕ) : RunState :=
  ⟨bs, env.init_file.getD [], [], [], env.init_file, []⟩

/-- The state after the whole window loop: fold `windowStep` over the
enumerated window starts. -/
def runBody (env : Env) (bs : ℕ) : RunState :=
  ((startsList env.num_pages bs).enum).foldl
    (fun st x => windowStep env x.1 x.2 st) (initState env bs)

/-- The value returned by `ocr_pdf_fallback`: the empty list when
`fitz.open` fails or `range` rejects a zero step (the outer
`except` returns `[]`), otherwise the accumulated documents. -/
def ocr_pdf_fallback (env : Env) (bs : ℕ) : List Doc :=
  if bs = 0 ∨ env.openOk = false then [] else (runBody env bs).docs

/-- The checkpoint file after the run: untouched on the abort path;
deleted when `failed_batches` is empty; otherwise left as last saved. -/
def finalCheckpoint (env : Env) (bs : ℕ) : Option (List ℕ) :=
  if bs = 0 ∨ env.openOk = false then env.init_file
  else if (runBody env bs).failed = [] then none
  else (runBody env bs).file

/-- Abstract environment for `ocr_image`: whether the image opens and
preprocesses, its original format, and the OCR result. -/
structure ImgEnv where
  openOk : Bool
  preprocessOk : Bool
  original_format : String
  ocr : String × Option ℚ

/-- `ocr_image`: failures return `[]`; otherwise one document with the
generic image heading and metadata carrying no page number. -/
def ocr_image (env : ImgEnv) : List Doc :=
  if env.openOk = false then []
  else if env.preprocessOk = false then []
  else
    [⟨convert_to_markdown (post_process_text env.ocr.1) none,
       none, env.original_format, env.ocr.2⟩]

/-- The successive values taken by `batch_size` at the top of each loop
iteration, ending with its value after the last window. -/
def sizeTrace (env : Env) : List (ℕ × ℕ) → RunState → List ℕ
  | [], st => [st.batch_size]
  | x :: xs, st => st.batch_size :: sizeTrace env xs (windowStep env x.1 x.2 st)

/-- The batch-size trace of a whole run. -/
def batchSizes (env : Env) (bs : ℕ) : List ℕ :=
  sizeTrace env ((startsList env.num_pages bs).enum) (initState env bs)

instance {ε α : Type} [DecidableEq ε] [DecidableEq α] : DecidableEq (Except ε α) := fun a b =>
  match a, b with
  | .ok x, .ok y => decidable_of_iff (x = y) (by simp)
  | .error x, .error y => decidable_of_iff (x = y) (by simp)
  | .ok _, .error _ => isFalse (by simp)
  | .error _, .ok _ => isFalse (by simp)

/-- The detections of `layout_to_markdown` in the easyocr/all-confidences
case are built as `some`-confidence records. -/
def withConf (x : BBox × String × ℚ) : Det := ⟨x.1, x.2.1, some x.2.2⟩

def dHello : Det := ⟨⟨(0,0),(5,0),(5,5),(0,5)⟩, "Hello", some (9/10)⟩

def dWorld20 : Det := ⟨⟨(0,20),(5,20),(5,25),(0,25)⟩, "World", some (4/5)⟩

def dWorld10 : Det := ⟨⟨(0,10),(5,10),(5,15),(0,15)⟩, "World", some (4/5)⟩

def dTieX : Det := ⟨⟨(0,0),(5,0),(5,5),(0,5)⟩, "X", some 1⟩

def dTieY : Det := ⟨⟨(0,0),(5,0),(5,5),(0,5)⟩, "Y", some 1⟩

def dLow : Det := ⟨⟨(0,0),(5,0),(5,5),(0,5)⟩, "alpha", some 1⟩

def dHigh : Det := ⟨⟨(0,20),(5,20),(5,25),(0,25)⟩, "beta", some 2⟩

def dNoConf : Det := ⟨⟨(0,0),(5,0),(5,5),(0,5)⟩, "text", none⟩

def callNoConf : EngineCall := ⟨Except.ok [dNoConf], Except.error "", Except.error ""⟩

/-- The fields of the state that `processPage` can touch. -/
def StateView (st : RunState) : List Doc × List ℕ × Option (List ℕ) :=
  (st.docs, st.processed, st.file)

def envC1 : Env :=
  ⟨2, true, none, fun _ => true,
   fun p => (if p = 0 then "A" else "B", some 1),
   fun i => if i = 0 then some (1, true) else none,
   fun _ => false⟩

def envC2 : Env :=
  ⟨4, true, none, fun _ => true, fun _ => ("T", some 1),
   fun _ => none, fun i => decide (i = 0)⟩

def envC3 : Env :=
  ⟨1, true, some [], fun _ => true, fun _ => ("", none),
   fun _ => none, fun _ => false⟩

def envC6 : Env :=
  ⟨2, true, none, fun _ => true,
   fun p => (if p = 0 then "OK" else "", if p = 0 then some 1 else none),
   fun _ => none, fun _ => false⟩

def envC7 : Env :=
  ⟨2, true, none, fun p => decide (p = 1), fun _ => ("T", some 1),
   fun _ => none, fun _ => false⟩

def envC7open : Env :=
  ⟨2, false, some [0], fun _ => true, fun _ => ("T", some 1),
   fun _ => none, fun _ => false⟩

/-- The shape of every document emitted for a PDF page: metadata carries
the zero-indexed page index, the format is "png", the content is the
post-processed text under the `# [Page p+1]:` header, and the average
confidence is the page's. -/
def DocShape (env : Env) (d : Doc) : Prop :=
  ∃ p, d.page_number = some p ∧ d.image_format = "png" ∧
    d.content = convert_to_markdown (post_process_text (env.ocr p).1) (some p) ∧
    d.average_confidence = (env.ocr p).2

def envC8 : Env :=
  ⟨1, true, none, fun _ => true, fun _ => ("Hi", some 1),
   fun _ => none, fun _ => false⟩

def docC8 : Doc := ⟨"\n\n# [Page 1]:\n\nHi", some 0, "png", some 1⟩

def imgEnvC8 : ImgEnv := ⟨true, true, "JPEG", ("t", none)⟩

def imgDocC8 : Doc := ⟨"# Image Scan Text\n\nt", none, "JPEG", none⟩

def envC9 : Env :=
  ⟨4, true, none, fun _ => true, fun _ => ("T", some 1),
   fun _ => none, fun i => decide (i = 0)⟩

/-- Two lists that are permutations of each other and have pairwise
distinct top y-coordinates sort to the same list. -/
lemma insertionSort_eq_of_perm (l₁ l₂ : List Det) (hp : l₁.Perm l₂)
    (hn : (l₁.map topY).Nodup) :
    List.insertionSort detLE l₁ = List.insertionSort detLE l₂ := by
  have h₁ := List.perm_insertionSort detLE l₁
  have h₂ := List.perm_insertionSort detLE l₂
  have hperm : (List.insertionSort detLE l₁).Perm (List.insertionSort detLE l₂) :=
    h₁.trans (hp.trans h₂.symm)
  have hs₁ := List.sorted_insertionSort detLE l₁
  have hs₂ := List.sorted_insertionSort detLE l₂
  have hn₁ : ((List.insertionSort detLE l₁).map topY).Nodup :=
    ((h₁.map topY).nodup_iff).mpr hn
  have hn₂ : ((List.insertionSort detLE l₂).map topY).Nodup :=
    ((hperm.map topY).nodup_iff).mp hn₁
  have hstrict : ∀ (s : List Det), List.Sorted detLE s → ((s.map topY).Nodup) →
      List.Pairwise (fun a b => topY a < topY b) s := by
    intro s hs hnd
    have hne : s.Pairwise (fun a b => topY a ≠ topY b) := List.pairwise_map.mp hnd
    exact (hs.and hne).imp (fun h => lt_of_le_of_ne h.1 h.2)
  haveI : IsAntisymm Det (fun a b => topY a < topY b) :=
    ⟨fun _ _ hab hba => absurd hba (lt_asymm hab)⟩
  exact List.eq_of_perm_of_sorted hperm (hstrict _ hs₁ hn₁) (hstrict _ hs₂ hn₂)

lemma map_conf_filterMap : ∀ (s : List Det), (∀ d ∈ s, (d.conf).isSome) →
    (s.map Det.conf).filterMap id = s.map (fun d => (d.conf).getD 0)
  | [], _ => rfl
  | d :: s, h => by
      obtain ⟨v, hv⟩ := Option.isSome_iff_exists.mp (h d (by simp))
      simp [hv, map_conf_filterMap s (fun x hx => h x (by simp [hx]))]

lemma layout_mean (l : List (BBox × String × ℚ)) (v : ℚ) :
    ∃ md, layout_to_markdown (l.map withConf) v =
      Except.ok (md, if l = [] then none
        else some ((l.map (fun x => x.2.2)).sum / (l.length : ℚ))) := by
  by_cases hl : l = []
  · subst hl
    exact ⟨"", rfl⟩
  · have hperm := List.perm_insertionSort detLE (l.map withConf)
    set s := List.insertionSort detLE (l.map withConf) with hs
    have hmem : ∀ d ∈ s, ∃ x ∈ l, d = withConf x := by
      intro d hd
      have : d ∈ l.map withConf := hperm.mem_iff.mp hd
      obtain ⟨x, hx, rfl⟩ := List.mem_map.mp this
      exact ⟨x, hx, rfl⟩
    have hsomes : ∀ d ∈ s, (d.conf).isSome := by
      intro d hd
      obtain ⟨x, _, rfl⟩ := hmem d hd
      rfl
    have hsne : s ≠ [] := by
      intro h
      exact hl (List.map_eq_nil_iff.mp (List.Perm.eq_nil (h ▸ hperm.symm)))
    have hempty : (s.map Det.conf).isEmpty = false := by
      cases hc : s with
      | nil => exact absurd hc hsne
      | cons a t => rfl
    have hall : (s.map Det.conf).all Option.isSome = true := by
      rw [List.all_eq_true]
      intro c hc
      obtain ⟨d, hd, rfl⟩ := List.mem_map.mp hc
      exact hsomes d hd
    refine ⟨String.intercalate "\n\n" (paraLoop v s [] [] none), ?_⟩
    unfold layout_to_markdown layoutCore
    rw [← hs]
    simp only [hempty, hall, Bool.false_eq_true, if_false, if_true]
    rw [if_neg hl]
    have hsum : ((s.map Det.conf).filterMap id).sum = (l.map (fun x => x.2.2)).sum := by
      rw [map_conf_filterMap s hsomes]
      have := (hperm.map (fun d => (d.conf).getD 0)).sum_eq
      rw [this, List.map_map]
      congr 1
    have hlen : ((s.map Det.conf).length : ℚ) = (l.length : ℚ) := by
      rw [List.length_map, hperm.length_eq, List.length_map]
    rw [hsum, hlen]

lemma layout_error_of_none (ds : List Det) (hne : ds ≠ []) (d : Det)
    (hd : d ∈ ds) (hc : d.conf = none) : layout_to_markdown ds 10 = Except.error () := by
  have hperm := List.perm_insertionSort detLE ds
  set s := List.insertionSort detLE ds with hs
  have hsne : s ≠ [] := by
    intro h
    exact hne (List.Perm.eq_nil (h ▸ hperm.symm))
  have hempty : (s.map Det.conf).isEmpty = false := by
    cases hc' : s with
    | nil => exact absurd hc' hsne
    | cons a t => rfl
  have hall : (s.map Det.conf).all Option.isSome = false := by
    by_contra h
    rw [Bool.not_eq_false, List.all_eq_true] at h
    have hds : d ∈ s := hperm.mem_iff.mpr hd
    have := h d.conf (List.mem_map_of_mem Det.conf hds)
    rw [hc] at this
    simp at this
  unfold layout_to_markdown layoutCore
  rw [← hs]
  simp only [hempty, hall, Bool.false_eq_true, if_false]

/-- Unfolding of the empty case of `paraLoop`. -/
lemma paraLoop_nil (thr : ℚ) (paragraphs current : List String) (lb : Option ℚ) :
    paraLoop thr [] paragraphs current lb =
      if current = [] then paragraphs
      else paragraphs ++ [String.intercalate " " current] := rfl

/-- Unfolding of `paraLoop` when `last_bottom` is not yet set. -/
lemma paraLoop_cons_none (thr : ℚ) (d : Det) (rest : List Det)
    (paragraphs current : List String) :
    paraLoop thr (d :: rest) paragraphs current none =
      paraLoop thr rest paragraphs (current ++ [d.text]) (some (botY d)) := rfl

/-- Unfolding of `paraLoop` when `last_bottom` is set. -/
lemma paraLoop_cons_some (thr : ℚ) (d : Det) (rest : List Det)
    (paragraphs current : List String) (lb : ℚ) :
    paraLoop thr (d :: rest) paragraphs current (some lb) =
      if topY d - lb > thr then
        paraLoop thr rest (paragraphs ++ [String.intercalate " " current])
          [d.text] (some (botY d))
      else paraLoop thr rest paragraphs (current ++ [d.text]) (some (botY d)) := rfl

lemma layout_example_split :
    layout_to_markdown [dHello, dWorld20] 10 =
      Except.ok ("Hello\n\nWorld", some (17/20)) := by
  have hsort : List.insertionSort detLE [dHello, dWorld20] = [dHello, dWorld20] := by
    simp only [List.insertionSort, List.orderedInsert]
    rw [if_pos (show detLE dHello dWorld20 from by decide)]
  have hc : topY dWorld20 - botY dHello > (10:ℚ) := by
    norm_num [topY, botY, dWorld20, dHello]
  have hpara : paraLoop 10 [dHello, dWorld20] [] [] none = ["Hello", "World"] := by
    rw [paraLoop_cons_none, paraLoop_cons_some, if_pos hc]
    decide
  simp only [layout_to_markdown, layoutCore, hsort, hpara]
  norm_num [List.filterMap_cons, dHello, dWorld20]
  decide

lemma layout_example_join :
    layout_to_markdown [dHello, dWorld10] 10 =
      Except.ok ("Hello World", some (17/20)) := by
  have hsort : List.insertionSort detLE [dHello, dWorld10] = [dHello, dWorld10] := by
    simp only [List.insertionSort, List.orderedInsert]
    rw [if_pos (show detLE dHello dWorld10 from by decide)]
  have hc : ¬ (topY dWorld10 - botY dHello > (10:ℚ)) := by
    norm_num [topY, botY, dWorld10, dHello]
  have hpara : paraLoop 10 [dHello, dWorld10] [] [] none = ["Hello World"] := by
    rw [paraLoop_cons_none, paraLoop_cons_some, if_neg hc]
    decide
  simp only [layout_to_markdown, layoutCore, hsort, hpara]
  norm_num [List.filterMap_cons, dHello, dWorld10]
  decide

/-- C4: the two example detections with a vertical gap of 15 produce the
two paragraphs "Hello" and "World" joined by a blank line with average
confidence 17/20 = 0.85; with a gap of 5 they form the single paragraph
"Hello World"; an empty detection list yields `("", none)`; and in general
the average confidence is the arithmetic mean of all confidences, absent
exactly when there are no detections. -/
theorem layout_examples_and_mean :
    layout_to_markdown [dHello, dWorld20] 10 = Except.ok ("Hello\n\nWorld", some (17/20)) ∧
    layout_to_markdown [dHello, dWorld10] 10 = Except.ok ("Hello World", some (17/20)) ∧
    layout_to_markdown [] 10 = Except.ok ("", none) ∧
    ∀ (l : List (BBox × String × ℚ)) (v : ℚ), ∃ md,
      layout_to_markdown (l.map withConf) v =
        Except.ok (md, if l = [] then none
          else some ((l.map (fun x => x.2.2)).sum / (l.length : ℚ))) :=
  ⟨layout_example_split, layout_example_join, rfl, layout_mean⟩

lemma layout_tie_xy :
    layout_to_markdown [dTieX, dTieY] 10 = Except.ok ("X Y", some 1) := by
  have hsort : List.insertionSort detLE [dTieX, dTieY] = [dTieX, dTieY] := by
    simp only [List.insertionSort, List.orderedInsert]
    rw [if_pos (show detLE dTieX dTieY from by decide)]
  have hc : ¬ (topY dTieY - botY dTieX > (10:ℚ)) := by
    norm_num [topY, botY, dTieY, dTieX]
  have hpara : paraLoop 10 [dTieX, dTieY] [] [] none = ["X Y"] := by
    rw [paraLoop_cons_none, paraLoop_cons_some, if_neg hc]
    decide
  simp only [layout_to_markdown, layoutCore, hsort, hpara]
  norm_num [List.filterMap_cons, dTieX, dTieY]
  decide

lemma layout_tie_yx :
    layout_to_markdown [dTieY, dTieX] 10 = Except.ok ("Y X", some 1) := by
  have hsort : List.insertionSort detLE [dTieY, dTieX] = [dTieY, dTieX] := by
    simp only [List.insertionSort, List.orderedInsert]
    rw [if_pos (show detLE dTieY dTieX from by decide)]
  have hc : ¬ (topY dTieX - botY dTieY > (10:ℚ)) := by
    norm_num [topY, botY, dTieY, dTieX]
  have hpara : paraLoop 10 [dTieY, dTieX] [] [] none = ["Y X"] := by
    rw [paraLoop_cons_none, paraLoop_cons_some, if_neg hc]
    decide
  simp only [layout_to_markdown, layoutCore, hsort, hpara]
  norm_num [List.filterMap_cons, dTieX, dTieY]
  decide

/-- C5 counterexample: two detections with equal top y-coordinates; the
stable sort keeps their input order, so the two permutations of the same
input produce different markdown. -/
theorem layout_not_perm_invariant_on_ties :
    List.Perm [dTieX, dTieY] [dTieY, dTieX] ∧
    layout_to_markdown [dTieX, dTieY] 10 ≠ layout_to_markdown [dTieY, dTieX] 10 := by
  refine ⟨List.Perm.swap dTieY dTieX [], ?_⟩
  rw [layout_tie_xy, layout_tie_yx]
  decide

/-- C5 amended: `layout_to_markdown` is invariant under permutations of
its input whenever the top y-coordinates of the detections are pairwise
distinct. -/
theorem layout_perm_invariant_distinct_tops :
    ∀ (l₁ l₂ : List Det) (v : ℚ), l₁.Perm l₂ → (l₁.map topY).Nodup →
      layout_to_markdown l₁ v = layout_to_markdown l₂ v := by
  intro l₁ l₂ v hp hn
  unfold layout_to_markdown
  rw [insertionSort_eq_of_perm l₁ l₂ hp hn]

/-- C5 witness -/
theorem layout_perm_invariant_distinct_tops_witness :
    layout_to_markdown [dLow, dHigh] 10 = layout_to_markdown [dHigh, dLow] 10 :=
  layout_perm_invariant_distinct_tops [dLow, dHigh] [dHigh, dLow] 10
    (List.Perm.swap dHigh dLow []) (by decide)

/-- C10: a `None` confidence among a nonempty detection list makes the
averaging in `layout_to_markdown` raise, and `perform_ocr`'s catch-all
turns the whole page into `("", None)`, discarding all recognized text. -/
theorem absent_confidence_degrades_page :
    ∀ (call : EngineCall) (ds : List Det), call.readtext = Except.ok ds → ds ≠ [] →
      (∃ d ∈ ds, d.conf = none) →
      perform_ocr EngineKind.easyocr call = ("", none) := by
  intro call ds h hne hex
  obtain ⟨d, hd, hc⟩ := hex
  unfold perform_ocr
  rw [h]
  show (match layout_to_markdown ds 10 with
        | Except.ok r => r
        | Except.error _ => ("", none)) = ("", none)
  rw [layout_error_of_none ds hne d hd hc]

/-- C10 witness -/
theorem absent_confidence_degrades_page_witness :
    perform_ocr EngineKind.easyocr callNoConf = ("", none) :=
  absent_confidence_degrades_page callNoConf [dNoConf] rfl (by decide)
    ⟨dNoConf, by decide, rfl⟩

lemma processPage_batch (env : Env) (st : RunState) (p : ℕ) :
    (processPage env st p).batch_size = st.batch_size := by
  unfold processPage; split <;> rfl

lemma processPage_failed (env : Env) (st : RunState) (p : ℕ) :
    (processPage env st p).failed = st.failed := by
  unfold processPage; split <;> rfl

lemma processPage_attempted (env : Env) (st : RunState) (p : ℕ) :
    (processPage env st p).attempted = st.attempted := by
  unfold processPage; split <;> rfl

lemma processPage_comm_attempted (env : Env) (st : RunState) (p : ℕ) (v : List (List ℕ)) :
    processPage env { st with attempted := v } p
      = { processPage env st p with attempted := v } := by
  unfold processPage; split <;> rfl

lemma foldl_processPage_batch (env : Env) :
    ∀ (l : List ℕ) (st : RunState),
      (l.foldl (processPage env) st).batch_size = st.batch_size
  | [], _ => rfl
  | p :: t, st => by
      rw [List.foldl_cons, foldl_processPage_batch env t, processPage_batch]

lemma foldl_processPage_failed (env : Env) :
    ∀ (l : List ℕ) (st : RunState),
      (l.foldl (processPage env) st).failed = st.failed
  | [], _ => rfl
  | p :: t, st => by
      rw [List.foldl_cons, foldl_processPage_failed env t, processPage_failed]

lemma foldl_processPage_comm_attempted (env : Env) :
    ∀ (l : List ℕ) (st : RunState) (v : List (List ℕ)),
      l.foldl (processPage env) { st with attempted := v }
        = { l.foldl (processPage env) st with attempted := v }
  | [], _, _ => rfl
  | p :: t, st, v => by
      rw [List.foldl_cons, processPage_comm_attempted,
        foldl_processPage_comm_attempted env t, List.foldl_cons]

lemma processPage_docs_mem (env : Env) (st : RunState) (p : ℕ) (d : Doc)
    (h : d ∈ st.docs) : d ∈ (processPage env st p).docs := by
  unfold processPage
  split
  · exact h
  · exact List.mem_append_left _ h

lemma foldl_processPage_docs_mem (env : Env) (d : Doc) :
    ∀ (l : List ℕ) (st : RunState), d ∈ st.docs →
      d ∈ (l.foldl (processPage env) st).docs
  | [], _, h => h
  | p :: t, st, h => by
      rw [List.foldl_cons]
      exact foldl_processPage_docs_mem env d t _ (processPage_docs_mem env st p d h)

lemma foldl_processPage_mkDoc_mem (env : Env) :
    ∀ (l : List ℕ) (st : RunState) (q : ℕ), q ∈ l → (env.ocr q).1 ≠ "" →
      mkDoc env q ∈ (l.foldl (processPage env) st).docs
  | [], _, q, h, _ => absurd h (List.not_mem_nil q)
  | p :: t, st, q, h, hne => by
      rw [List.foldl_cons]
      rcases List.mem_cons.mp h with rfl | hq
      · apply foldl_processPage_docs_mem
        unfold processPage
        rw [if_neg hne]
        exact List.mem_append_right _ (by simp)
      · exact foldl_processPage_mkDoc_mem env t _ q hq hne

lemma foldl_processPage_processed (env : Env) :
    ∀ (l : List ℕ) (st : RunState), ∃ adds,
      (l.foldl (processPage env) st).processed = st.processed ++ adds ∧
      ∀ a ∈ adds, a ∈ l
  | [], st => ⟨[], by simp, by simp⟩
  | p :: t, st => by
      rw [List.foldl_cons]
      obtain ⟨adds, ha, hsub⟩ := foldl_processPage_processed env t (processPage env st p)
      by_cases h : (env.ocr p).1 = ""
      · refine ⟨adds, ?_, fun a haa => List.mem_cons_of_mem _ (hsub a haa)⟩
        rw [ha]
        unfold processPage
        rw [if_pos h]
      · refine ⟨p :: adds, ?_, ?_⟩
        · rw [ha]
          unfold processPage
          rw [if_neg h]
          simp
        · intro a haa
          rcases List.mem_cons.mp haa with rfl | haa
          · exact List.mem_cons_self a t
          · exact List.mem_cons_of_mem _ (hsub a haa)

lemma memCheck_view (env : Env) (i : ℕ) (st : RunState) :
    StateView (memCheck env i st) = StateView st := by
  unfold memCheck halveBatch; split <;> rfl

/-- Every branch of `windowStep` leaves the documents, processed pages and
checkpoint file exactly as some fold of `processPage` over a sublist of
the window's rasterized pages. -/
lemma windowStep_view (env : Env) (i b : ℕ) (st : RunState) :
    ∃ l : List ℕ, (∀ p ∈ l, p ∈ imagesOf env st b) ∧
      StateView (windowStep env i b st)
        = StateView (l.foldl (processPage env) st) := by
  simp only [windowStep]
  split
  · exact ⟨[], by simp, rfl⟩
  · split
    · exact ⟨[], by simp, rfl⟩
    · split
      · refine ⟨imagesOf env st b, fun p hp => hp, ?_⟩
        rw [memCheck_view, foldl_processPage_comm_attempted]
        rfl
      · split
        · rename_i k isOom heq hoom
          refine ⟨(imagesOf env st b).take k, fun p hp => List.mem_of_mem_take hp, ?_⟩
          rw [foldl_processPage_comm_attempted]
          rfl
        · rename_i k isOom heq hoom
          refine ⟨(imagesOf env st b).take k, fun p hp => List.mem_of_mem_take hp, ?_⟩
          rw [memCheck_view]
          show StateView { ((imagesOf env st b).take k).foldl (processPage env)
            { st with attempted := st.attempted ++ [pageNums env st b] } with failed := _ }
            = _
          rw [foldl_processPage_comm_attempted]
          rfl

lemma foldl_view_pres (env : Env) (Q : List Doc × List ℕ × Option (List ℕ) → Prop)
    (pre : ℕ → Prop)
    (hstep : ∀ st p, pre p → Q (StateView st) → Q (StateView (processPage env st p))) :
    ∀ (l : List ℕ) (st : RunState), (∀ p ∈ l, pre p) → Q (StateView st) →
      Q (StateView (l.foldl (processPage env) st))
  | [], _, _, h => h
  | p :: t, st, hl, h => by
      rw [List.foldl_cons]
      exact foldl_view_pres env Q pre hstep t _ (fun q hq => hl q (List.mem_cons_of_mem _ hq))
        (hstep st p (hl p (List.mem_cons_self p t)) h)

lemma mem_imagesOf (env : Env) (st : RunState) (b p : ℕ) (h : p ∈ imagesOf env st b) :
    p ∈ pageNums env st b ∧ env.rasterOk p = true := List.mem_filter.mp h

lemma mem_pageNums_not_processed (env : Env) (st : RunState) (b p : ℕ)
    (h : p ∈ pageNums env st b) : p ∉ st.processed :=
  of_decide_eq_true (List.mem_filter.mp h).2

lemma windowStep_pres (env : Env) (Q : List Doc × List ℕ × Option (List ℕ) → Prop)
    (pre : ℕ → Prop) (hpre : ∀ p, env.rasterOk p = true → pre p)
    (hstep : ∀ st p, pre p → Q (StateView st) → Q (StateView (processPage env st p)))
    (i b : ℕ) (st : RunState) (h : Q (StateView st)) :
    Q (StateView (windowStep env i b st)) := by
  obtain ⟨l, hl, hv⟩ := windowStep_view env i b st
  rw [hv]
  exact foldl_view_pres env Q pre hstep l st
    (fun p hp => hpre p (mem_imagesOf env st b p (hl p hp)).2) h

lemma foldl_windows_pres (env : Env) (Q : List Doc × List ℕ × Option (List ℕ) → Prop)
    (pre : ℕ → Prop) (hpre : ∀ p, env.rasterOk p = true → pre p)
    (hstep : ∀ st p, pre p → Q (StateView st) → Q (StateView (processPage env st p))) :
    ∀ (ws : List (ℕ × ℕ)) (st : RunState), Q (StateView st) →
      Q (StateView (ws.foldl (fun s x => windowStep env x.1 x.2 s) st))
  | [], _, h => h
  | w :: t, st, h => by
      rw [List.foldl_cons]
      exact foldl_windows_pres env Q pre hpre hstep t _
        (windowStep_pres env Q pre hpre hstep w.1 w.2 st h)

lemma runBody_pres (env : Env) (bs : ℕ) (Q : List Doc × List ℕ × Option (List ℕ) → Prop)
    (pre : ℕ → Prop) (hpre : ∀ p, env.rasterOk p = true → pre p)
    (hstep : ∀ st p, pre p → Q (StateView st) → Q (StateView (processPage env st p)))
    (hinit : Q (StateView (initState env bs))) :
    Q (StateView (runBody env bs)) :=
  foldl_windows_pres env Q pre hpre hstep _ _ hinit

lemma memCheck_docs (env : Env) (i : ℕ) (st : RunState) :
    (memCheck env i st).docs = st.docs := by
  unfold memCheck halveBatch; split <;> rfl

lemma pageNums_nodup (env : Env) (st : RunState) (b : ℕ) :
    (pageNums env st b).Nodup :=
  (List.nodup_range' _ _).filter _

lemma imagesOf_nodup (env : Env) (st : RunState) (b : ℕ) :
    (imagesOf env st b).Nodup :=
  (pageNums_nodup env st b).filter _

/-- C1 amended: on a CUDA out-of-memory `RuntimeError` the batch size is
halved (floor 1) and the `continue` moves on to the next window start: the
window's remaining pages stay unprocessed (and unrecorded as failures)
within this run. -/
theorem oom_backoff_halves_and_skips :
    ∀ (env : Env) (i b k : ℕ) (st : RunState),
      env.interrupt i = some (k, true) →
      pageNums env st b ≠ [] → imagesOf env st b ≠ [] →
      (windowStep env i b st).batch_size = max 1 (st.batch_size / 2) ∧
      (windowStep env i b st).failed = st.failed ∧
      ∀ p ∈ (imagesOf env st b).drop k, ¬ p ∈ (windowStep env i b st).processed := by
  intro env i b k st hint h1 h2
  have hred : windowStep env i b st =
      halveBatch (((imagesOf env st b).take k).foldl (processPage env)
        { st with attempted := st.attempted ++ [pageNums env st b] }) := by
    simp only [windowStep]
    rw [if_neg h1, if_neg h2, hint]
    rfl
  rw [hred]
  refine ⟨?_, ?_, ?_⟩
  · show max 1 (_ / 2) = max 1 (st.batch_size / 2)
    rw [foldl_processPage_batch]
  · show (((imagesOf env st b).take k).foldl (processPage env) _).failed = st.failed
    rw [foldl_processPage_failed]
  · intro p hp
    obtain ⟨adds, ha, hsub⟩ := foldl_processPage_processed env
      ((imagesOf env st b).take k)
      { st with attempted := st.attempted ++ [pageNums env st b] }
    show ¬ p ∈ (((imagesOf env st b).take k).foldl (processPage env) _).processed
    rw [ha]
    intro hmem
    rcases List.mem_append.mp hmem with hmem | hmem
    · exact mem_pageNums_not_processed env st b p
        (mem_imagesOf env st b p (List.mem_of_mem_drop hp)).1 hmem
    · exact (List.disjoint_take_drop (imagesOf_nodup env st b) le_rfl) (hsub p hmem) hp

/-- C1 counterexample: the OOM backoff abandons page 1 of the window
`[0, 1]` for the rest of the run (the window is attempted once, page 1 is
neither processed nor recorded as failed, and the checkpoint is even
deleted at the end). -/
theorem oom_backoff_skips_window :
    envC1.interrupt 0 = some (1, true) ∧ (envC1.ocr 1).1 ≠ "" ∧
    (runBody envC1 2).attempted = [[0, 1]] ∧
    (runBody envC1 2).processed = [0] ∧
    ¬ 1 ∈ (runBody envC1 2).processed ∧
    (runBody envC1 2).failed = [] ∧
    finalCheckpoint envC1 2 = none := by decide

/-- C1 witness -/
theorem oom_backoff_halves_and_skips_witness :
    (windowStep envC1 0 0 (initState envC1 2)).batch_size
      = max 1 ((initState envC1 2).batch_size / 2) ∧
    (windowStep envC1 0 0 (initState envC1 2)).failed = (initState envC1 2).failed ∧
    ¬ 1 ∈ (windowStep envC1 0 0 (initState envC1 2)).processed := by
  have h := oom_backoff_halves_and_skips envC1 0 0 1 (initState envC1 2) rfl
    (by decide) (by decide)
  exact ⟨h.1, h.2.1, h.2.2 1 (by decide)⟩

/-- C2: after the memory-pressure backoff halves the batch size, the
frozen stride of `range(0, num_pages, batch_size)` combined with the
shrunken `batch_end` leaves page 3 outside every attempted window; the
run then deletes the checkpoint as if fully successful. -/
theorem halved_batch_skips_pages :
    envC2.num_pages = 4 ∧ envC2.init_file = none ∧ envC2.memHigh 0 = true ∧
    (runBody envC2 2).attempted = [[0, 1], [2]] ∧
    (runBody envC2 2).processed = [0, 1, 2] ∧
    ¬ 3 ∈ (runBody envC2 2).processed ∧
    ((runBody envC2 2).attempted.all fun w => !w.contains 3) = true ∧
    finalCheckpoint envC2 2 = none := by decide

/-- C3 counterexample: the only page fails recognition (the engine gate
degrades it to empty text), so it is never processed, yet
`failed_batches` stays empty and the checkpoint file is deleted. -/
theorem checkpoint_deleted_despite_failed_page :
    envC3.init_file = some [] ∧ (envC3.ocr 0).1 = "" ∧
    (runBody envC3 1).docs = [] ∧
    ¬ 0 ∈ (runBody envC3 1).processed ∧
    (runBody envC3 1).failed = [] ∧
    finalCheckpoint envC3 1 = none := by decide

/-- C3 amended: the checkpoint is deleted exactly when `failed_batches`
is empty (pages degraded to empty text or skipped by the backoff do not
count), and whenever the file survives it holds exactly the loaded
checkpoint plus the pages newly processed in this run. -/
theorem checkpoint_cleanup_follows_failed_batches :
    ∀ (env : Env) (bs : ℕ), 0 < bs → env.openOk = true →
      finalCheckpoint env bs =
        (if (runBody env bs).failed = [] then none else (runBody env bs).file) ∧
      ((runBody env bs).file = some (runBody env bs).processed ∨
        ((runBody env bs).file = env.init_file ∧
          (runBody env bs).processed = env.init_file.getD [])) := by
  intro env bs h0 hopen
  constructor
  · unfold finalCheckpoint
    rw [if_neg (by simp [hopen]; omega)]
  · have h := runBody_pres env bs
      (fun v => v.2.2 = some v.2.1 ∨ (v.2.2 = env.init_file ∧ v.2.1 = env.init_file.getD []))
      (fun _ => True) (fun _ _ => trivial)
      (fun st p _ hq => by
        unfold processPage
        split
        · exact hq
        · left; rfl)
      (Or.inr ⟨rfl, rfl⟩)
    exact h

/-- C3 witness -/
theorem checkpoint_cleanup_follows_failed_batches_witness :
    finalCheckpoint envC3 1 =
      (if (runBody envC3 1).failed = [] then none else (runBody envC3 1).file) ∧
    ((runBody envC3 1).file = some (runBody envC3 1).processed ∨
      ((runBody envC3 1).file = envC3.init_file ∧
        (runBody envC3 1).processed = envC3.init_file.getD [])) :=
  checkpoint_cleanup_follows_failed_batches envC3 1 (by decide) rfl

/-- C6: `perform_ocr` maps every raising engine call to `("", None)`; a
page whose recognition failed is just an empty-text outcome, so every
sibling page of an uninterrupted window still yields its document, and
the run returns the accumulated documents rather than aborting. -/
theorem perform_ocr_never_raises_and_isolates :
    (∀ (engine : EngineKind) (e₁ e₂ e₃ : String),
        perform_ocr engine ⟨Except.error e₁, Except.error e₂, Except.error e₃⟩ = ("", none)) ∧
    (∀ (env : Env) (i b : ℕ) (st : RunState) (q : ℕ),
        env.interrupt i = none → q ∈ imagesOf env st b → (env.ocr q).1 ≠ "" →
        mkDoc env q ∈ (windowStep env i b st).docs) ∧
    (∀ (env : Env) (bs : ℕ), 0 < bs → env.openOk = true →
        ocr_pdf_fallback env bs = (runBody env bs).docs) := by
  refine ⟨?_, ?_, ?_⟩
  · intro engine e₁ e₂ e₃
    cases engine <;> rfl
  · intro env i b st q hint hq hne
    have hpns : pageNums env st b ≠ [] :=
      List.ne_nil_of_mem (mem_imagesOf env st b q hq).1
    have himgs : imagesOf env st b ≠ [] := List.ne_nil_of_mem hq
    have hred : windowStep env i b st =
        memCheck env i ((imagesOf env st b).foldl (processPage env)
          { st with attempted := st.attempted ++ [pageNums env st b] }) := by
      simp only [windowStep]
      rw [if_neg hpns, if_neg himgs, hint]
    rw [hred, memCheck_docs]
    exact foldl_processPage_mkDoc_mem env _ _ q hq hne
  · intro env bs h0 hopen
    unfold ocr_pdf_fallback
    rw [if_neg (by simp [hopen]; omega)]

/-- C6 witness -/
theorem perform_ocr_never_raises_and_isolates_witness :
    perform_ocr EngineKind.easyocr
      ⟨Except.error "boom", Except.error "x", Except.error "y"⟩ = ("", none) ∧
    mkDoc envC6 0 ∈ (windowStep envC6 0 0 (initState envC6 2)).docs ∧
    ocr_pdf_fallback envC6 2 = (runBody envC6 2).docs := by
  refine ⟨perform_ocr_never_raises_and_isolates.1 EngineKind.easyocr "boom" "x" "y", ?_, ?_⟩
  · exact perform_ocr_never_raises_and_isolates.2.1 envC6 0 0 (initState envC6 2) 0
      rfl (by decide) (by decide)
  · exact perform_ocr_never_raises_and_isolates.2.2 envC6 2 (by decide) rfl

/-- C7 amended: only a document-open failure aborts the run with an empty
result (and leaves the checkpoint untouched); a page whose rasterization
fails is silently skipped — it produces no record and never enters the
checkpoint — while the rest of the run proceeds. -/
theorem open_failure_aborts_raster_failure_skips :
    ∀ (env : Env) (bs : ℕ),
      (env.openOk = false →
        ocr_pdf_fallback env bs = [] ∧ finalCheckpoint env bs = env.init_file) ∧
      (∀ p, env.rasterOk p = false → ¬ p ∈ env.init_file.getD [] →
        ¬ p ∈ (runBody env bs).processed ∧
        ∀ d ∈ (runBody env bs).docs, d.page_number ≠ some p) := by
  intro env bs
  constructor
  · intro hopen
    constructor
    · unfold ocr_pdf_fallback
      rw [if_pos (Or.inr hopen)]
    · unfold finalCheckpoint
      rw [if_pos (Or.inr hopen)]
  · intro p hrast hinit
    have h := runBody_pres env bs
      (fun v => ¬ p ∈ v.2.1 ∧ ∀ d ∈ v.1, d.page_number ≠ some p)
      (fun q => env.rasterOk q = true) (fun _ hq => hq)
      (fun st q hq hQ => by
        have hqp : q ≠ p := by
          intro hc
          rw [hc, hrast] at hq
          cases hq
        unfold processPage
        split
        · exact hQ
        · constructor
          · intro hmem
            rcases List.mem_append.mp hmem with hmem | hmem
            · exact hQ.1 hmem
            · exact hqp (List.mem_singleton.mp hmem).symm
          · intro d hd
            rcases List.mem_append.mp hd with hd | hd
            · exact hQ.2 d hd
            · rw [List.mem_singleton.mp hd]
              intro hc
              exact hqp (Option.some_injective ℕ hc))
      ⟨hinit, by intro d hd; cases hd⟩
    exact h

/-- C7 counterexample: rasterization of page 0 fails, yet the run does
not abort — it returns the record of page 1. -/
theorem raster_failure_skips_page_only :
    envC7.rasterOk 0 = false ∧ envC7.openOk = true ∧
    ocr_pdf_fallback envC7 2 ≠ [] ∧
    (runBody envC7 2).processed = [1] := by decide

/-- C7 witness -/
theorem open_failure_aborts_raster_failure_skips_witness :
    (ocr_pdf_fallback envC7open 2 = [] ∧
      finalCheckpoint envC7open 2 = envC7open.init_file) ∧
    ¬ 0 ∈ (runBody envC7 2).processed ∧
    (mkDoc envC7 1).page_number ≠ some 0 := by
  have h := (open_failure_aborts_raster_failure_skips envC7 2).2 0 rfl (by decide)
  exact ⟨(open_failure_aborts_raster_failure_skips envC7open 2).1 rfl,
    h.1, h.2 (mkDoc envC7 1) (by decide)⟩

/-- C8 amended: every PDF page record stores the zero-indexed page index
in its metadata while the content header displays that index plus one;
standalone-image records carry no page number. -/
theorem page_records_characterization :
    (∀ (env : Env) (bs : ℕ) (d : Doc), d ∈ (runBody env bs).docs → DocShape env d) ∧
    (∀ (t : String) (p : ℕ), convert_to_markdown t (some p) =
      "\n\n# [Page " ++ Nat.repr (p + 1) ++ "]:\n\n" ++ t) ∧
    (∀ (ienv : ImgEnv) (d : Doc), d ∈ ocr_image ienv → d.page_number = none) := by
  refine ⟨?_, fun t p => rfl, ?_⟩
  · intro env bs d hd
    have h := runBody_pres env bs (fun v => ∀ x ∈ v.1, DocShape env x)
      (fun _ => True) (fun _ _ => trivial)
      (fun st q _ hQ => by
        unfold processPage
        split
        · exact hQ
        · intro x hx
          rcases List.mem_append.mp hx with hx | hx
          · exact hQ x hx
          · rw [List.mem_singleton.mp hx]
            exact ⟨q, rfl, rfl, rfl, rfl⟩)
      (by intro x hx; cases hx)
    exact h d hd
  · intro ienv d hd
    unfold ocr_image at hd
    split at hd
    · cases hd
    · split at hd
      · cases hd
      · rw [List.mem_singleton.mp hd]

/-- C8 counterexample: the record produced for PDF page 0 carries
`page_number = 0` in its metadata (not the 1-indexed value 1) while its
content header displays "# [Page 1]:". -/
theorem page_number_metadata_zero_indexed :
    (runBody envC8 1).docs = [docC8] ∧
    docC8.page_number = some 0 ∧
    docC8.content = "\n\n# [Page 1]:\n\nHi" ∧
    docC8.page_number ≠ some 1 := by decide

/-- C8 witness -/
theorem page_records_characterization_witness :
    DocShape envC8 docC8 ∧
    convert_to_markdown "Hi" (some 0) = "\n\n# [Page 1]:\n\nHi" ∧
    imgDocC8.page_number = none := by
  refine ⟨page_records_characterization.1 envC8 1 docC8 (by decide),
    page_records_characterization.2.1 "Hi" 0,
    page_records_characterization.2.2 imgEnvC8 imgDocC8 (by decide)⟩

lemma windowStep_batch_cases (env : Env) (i b : ℕ) (st : RunState) :
    (windowStep env i b st).batch_size = st.batch_size ∨
    (windowStep env i b st).batch_size = max 1 (st.batch_size / 2) := by
  simp only [windowStep]
  split
  · left; rfl
  · split
    · left; rfl
    · split
      · unfold memCheck
        split
        · right
          show max 1 (_ / 2) = _
          rw [foldl_processPage_batch]
        · left
          rw [foldl_processPage_batch]
      · split
        · right
          show max 1 (_ / 2) = _
          rw [foldl_processPage_batch]
        · unfold memCheck
          split
          · right
            show max 1 (_ / 2) = _
            show max 1 ((List.foldl (processPage env) _ _).batch_size / 2) = _
            rw [foldl_processPage_batch]
          · left
            show (List.foldl (processPage env) _ _).batch_size = _
            rw [foldl_processPage_batch]

lemma windowStep_batch (env : Env) (i b : ℕ) (st : RunState) (h : 1 ≤ st.batch_size) :
    (windowStep env i b st).batch_size ≤ st.batch_size ∧
    1 ≤ (windowStep env i b st).batch_size := by
  rcases windowStep_batch_cases env i b st with hc | hc <;> rw [hc]
  · exact ⟨le_rfl, h⟩
  · exact ⟨max_le h (Nat.div_le_self _ _), le_max_left _ _⟩

lemma sizeTrace_head (env : Env) (l : List (ℕ × ℕ)) (st : RunState) :
    (sizeTrace env l st).head? = some st.batch_size := by
  cases l <;> rfl

lemma sizeTrace_ne_nil (env : Env) (l : List (ℕ × ℕ)) (st : RunState) :
    sizeTrace env l st ≠ [] := by
  cases l <;> simp [sizeTrace]

lemma sizeTrace_chain (env : Env) :
    ∀ (l : List (ℕ × ℕ)) (st : RunState), 1 ≤ st.batch_size →
      List.Chain' (fun a b => b ≤ a) (sizeTrace env l st) ∧
      ∀ x ∈ sizeTrace env l st, 1 ≤ x
  | [], st, h => ⟨List.chain'_singleton _, by intro x hx; rw [List.mem_singleton.mp hx]; exact h⟩
  | w :: t, st, h => by
      have hb := windowStep_batch env w.1 w.2 st h
      obtain ⟨ih1, ih2⟩ := sizeTrace_chain env t (windowStep env w.1 w.2 st) hb.2
      constructor
      · show List.Chain' (fun a b => b ≤ a) (st.batch_size :: sizeTrace env t _)
        rw [List.chain'_cons']
        refine ⟨?_, ih1⟩
        intro y hy
        rw [sizeTrace_head] at hy
        rw [Option.mem_def, Option.some_inj] at hy
        rw [← hy]
        exact hb.1
      · intro x hx
        rcases List.mem_cons.mp hx with rfl | hx
        · exact h
        · exact ih2 x hx

lemma sizeTrace_getLast (env : Env) :
    ∀ (l : List (ℕ × ℕ)) (st : RunState),
      (sizeTrace env l st).getLast? =
        some ((l.foldl (fun s x => windowStep env x.1 x.2 s) st).batch_size)
  | [], _ => rfl
  | w :: t, st => by
      show (st.batch_size :: sizeTrace env t (windowStep env w.1 w.2 st)).getLast? = _
      rcases hcase : sizeTrace env t (windowStep env w.1 w.2 st) with _ | ⟨y, ys⟩
      · exact absurd hcase (sizeTrace_ne_nil env t _)
      · rw [List.getLast?_cons_cons, ← hcase, sizeTrace_getLast env t, List.foldl_cons]

/-- C9: across the windows of a run the batch size never increases, never
drops below 1, and the last trace entry is the final state's batch size. -/
theorem batch_size_monotone_ge_one :
    ∀ (env : Env) (bs : ℕ), 1 ≤ bs →
      List.Chain' (fun a b => b ≤ a) (batchSizes env bs) ∧
      (∀ x ∈ batchSizes env bs, 1 ≤ x) ∧
      (batchSizes env bs).getLast? = some ((runBody env bs).batch_size) := by
  intro env bs h
  have hc := sizeTrace_chain env ((startsList env.num_pages bs).enum) (initState env bs) h
  exact ⟨hc.1, hc.2, sizeTrace_getLast env _ _⟩

/-- C9 witness -/
theorem batch_size_monotone_ge_one_witness :
    List.Chain' (fun a b => b ≤ a) (batchSizes envC9 2) ∧
    (∀ x ∈ batchSizes envC9 2, 1 ≤ x) ∧
    (batchSizes envC9 2).getLast? = some ((runBody envC9 2).batch_size) :=
  batch_size_monotone_ge_one envC9 2 (by decide)

end OcrProc
